import Mathlib

/-!
Shallow embedding of the sam3-eyes-dist-measure pipeline.

The development models the three core stages of the repository:

* `AnimalMeasurementTool` (measurement_tool.py): contour centroids via
  Green-formula moments (`cv2.moments`), left/right landmark assignment,
  intra-object and inter-object distances rounded to two decimals.
* `AnimalEyePipeline` (eyes_extractor.py): the incremental eye-refinement
  loop with its skip-if-present test, the mutual-exclusion masking step,
  and the save-on-interrupt run loop.
* `TestVerifier` (verify_results.py): classification of ground-truth rows
  and the mean-absolute-error report.

Machine integers of the source are modelled as `ℤ`/`ℕ`; the float
arithmetic of `math.sqrt`/`round` is modelled exactly over `ℚ` (the
rounded two-decimal value of a square root of an integer never lands on
a tie, so round-half-even and round-half-up agree; a bridging lemma
relates the integer computation to `Real.sqrt`).
-/

namespace SamEyes

/-- A 2-D point with integer pixel coordinates, as stored in the JSON
contours (`[[x, y], ...]`). -/
abbrev Pt : Type := ℤ × ℤ

/-- Truncation toward zero: the behaviour of Python `int()` and of numpy
`astype(int)` on a (here: rational) value. -/
def pyTrunc (q : ℚ) : ℤ := if 0 ≤ q then ⌊q⌋ else ⌈q⌉

/-- Successive cyclic point pairs of a polygon, the implicit closing edge
included — the edge list over which `cv2.moments` accumulates its
Green-formula contour moments. -/
def cyclicPairs (pts : List Pt) : List (Pt × Pt) := pts.zip (pts.rotate 1)

/-- Cross product term of one polygon edge. -/
def cross (a b : Pt) : ℤ := a.1 * b.2 - b.1 * a.2

namespace AnimalMeasurementTool

/-- Contour moment `m00`: the signed polygon area of the contour
(`cv2.moments(pts)["m00"]` up to the orientation sign flip, which cancels
in the centroid quotients and does not change the `m00 != 0` test). -/
def m00 (pts : List Pt) : ℚ :=
  (((cyclicPairs pts).map fun ab => cross ab.1 ab.2).sum : ℤ) / 2

/-- Contour moment `m10` (first moment in x). -/
def m10 (pts : List Pt) : ℚ :=
  (((cyclicPairs pts).map fun ab => (ab.1.1 + ab.2.1) * cross ab.1 ab.2).sum : ℤ) / 6

/-- Contour moment `m01` (first moment in y). -/
def m01 (pts : List Pt) : ℚ :=
  (((cyclicPairs pts).map fun ab => (ab.1.2 + ab.2.2) * cross ab.1 ab.2).sum : ℤ) / 6

/-- Arithmetic mean of the x coordinates (`np.mean(pts, axis=0)`, first
component). -/
def meanX (pts : List Pt) : ℚ := ((pts.map fun p => p.1).sum : ℤ) / (pts.length : ℚ)

/-- Arithmetic mean of the y coordinates. -/
def meanY (pts : List Pt) : ℚ := ((pts.map fun p => p.2).sum : ℤ) / (pts.length : ℚ)

/-- `AnimalMeasurementTool._get_centroid`: area-weighted polygon centroid
with `int()` truncation, falling back to the truncated arithmetic mean of
the points when the signed area `m00` is zero. -/
def _get_centroid (pts : List Pt) : Pt :=
  if m00 pts ≠ 0 then
    (pyTrunc (m10 pts / m00 pts), pyTrunc (m01 pts / m00 pts))
  else
    (pyTrunc (meanX pts), pyTrunc (meanY pts))

/-- Squared Euclidean distance between two integer points; the argument of
`math.sqrt` inside `_calculate_euclidean_distance`. -/
def distSq (p q : Pt) : ℕ := ((p.1 - q.1) ^ 2 + (p.2 - q.2) ^ 2).toNat

/-- Round the square root of a natural number to the nearest integer
(round half up; on square roots of integers the half case never occurs). -/
def roundNatSqrt (m : ℕ) : ℕ :=
  let s := Nat.sqrt m
  if s * s + s + 1 ≤ m then s + 1 else s

/-- The value `round(self._calculate_euclidean_distance(p, q), 2)` computed
exactly: `round(100 * sqrt(distSq p q)) / 100` as a rational.  Because
`100 * sqrt n = sqrt (10000 * n)` and `10000 * n` is even, the rounding
never hits a tie, so Python's round-half-even and the half-up rounding
used here coincide (see `roundNatSqrt_eq_round_real_sqrt`). -/
def roundDist2 (p q : Pt) : ℚ := (roundNatSqrt (10000 * distSq p q) : ℚ) / 100

/-- One object entry of an annotation record as consumed and produced by
the measurement stage (`measurement_tool.py`).  `tmpL`/`tmpR` model the
`_tmp_eye_L`/`_tmp_eye_R` keys that exist only between
`_preprocess_coordinates` and the cleanup at the end of
`_calculate_all_metrics`; `none` models an absent JSON key. -/
structure MObj where
  object_id : Option String := none
  eyes : List (List Pt) := []
  eyes_dist : Option ℚ := none
  eye_L_center : Option Pt := none
  eye_R_center : Option Pt := none
  tmpL : Option Pt := none
  tmpR : Option Pt := none
deriving DecidableEq

/-- One entry of the `pairs` list written by the measurement stage. -/
structure PairRec where
  obj_1_id : String
  obj_2_id : String
  right_eye_dist : ℚ
deriving DecidableEq

/-- A per-image annotation record as seen by the measurement stage. -/
structure AnnRecord where
  width : ℕ := 0
  height : ℕ := 0
  objects : List MObj := []
  pairs : List PairRec := []
deriving DecidableEq

/-- Stable two-element sort by horizontal coordinate:
`centroids.sort(key=lambda p: p[0])` on a two-element list swaps exactly
when the second x coordinate is strictly smaller than the first. -/
def sortByX2 (c : Pt × Pt) : Pt × Pt := if c.2.1 < c.1.1 then (c.2, c.1) else c

/-- Body of the object loop of `_preprocess_coordinates`: when the object
carries exactly two eye contours, compute and sort their centroids and
store them under the temporary left/right keys; otherwise leave the
object untouched. -/
def _preprocess_obj (o : MObj) : MObj :=
  match o.eyes with
  | [e1, e2] =>
      let lr := sortByX2 (_get_centroid e1, _get_centroid e2)
      { o with tmpL := some lr.1, tmpR := some lr.2 }
  | _ => o

/-- `_preprocess_coordinates` on a single record. -/
def _preprocess_coordinates (r : AnnRecord) : AnnRecord :=
  { r with objects := r.objects.map _preprocess_obj }

/-- Part A of `_calculate_all_metrics` for one object: when both temporary
landmarks are present, write the rounded intra-object distance and the
two landmark centers. -/
def metricsObj (o : MObj) : MObj :=
  match o.tmpL, o.tmpR with
  | some l, some r =>
      { o with eyes_dist := some (roundDist2 l r)
               eye_L_center := some l
               eye_R_center := some r }
  | _, _ => o

/-- The `objs_with_eyes` list collected during Part A: the objects (after
metric assignment) that carry both temporary landmarks. -/
def objsWithEyes (objs : List MObj) : List MObj :=
  (objs.map metricsObj).filter fun o => o.tmpL.isSome && o.tmpR.isSome

/-- All ordered index pairs in list order — `itertools.combinations(l, 2)`.
Each unordered pair of positions appears exactly once, the earlier element
first. -/
def pairCombs {α : Type} : List α → List (α × α)
  | [] => []
  | x :: xs => (xs.map fun y => (x, y)) ++ pairCombs xs

/-- One `pairs` entry: identifiers in enumeration order (with the
`"unknown"` default of `obj.get("object_id", "unknown")`) and the rounded
right-eye to right-eye distance. -/
def mkPair (a b : MObj) : PairRec :=
  { obj_1_id := a.object_id.getD "unknown"
    obj_2_id := b.object_id.getD "unknown"
    right_eye_dist := roundDist2 (a.eye_R_center.getD (0, 0)) (b.eye_R_center.getD (0, 0)) }

/-- Cleanup at the end of `_calculate_all_metrics`:
`obj.pop("_tmp_eye_L", None)` / `obj.pop("_tmp_eye_R", None)`. -/
def clearTmp (o : MObj) : MObj := { o with tmpL := none, tmpR := none }

/-- `_calculate_all_metrics` on a single record: assign per-object metrics,
regenerate the `pairs` list wholesale from the qualifying objects, clear
the temporary keys, and return the record with the pair count. -/
def _calculate_all_metrics (r : AnnRecord) : AnnRecord × ℕ :=
  let objs2 := r.objects.map metricsObj
  let qual := objs2.filter fun o => o.tmpL.isSome && o.tmpR.isSome
  let pairs := (pairCombs qual).map fun ab => mkPair ab.1 ab.2
  ({ r with objects := objs2.map clearTmp, pairs := pairs }, pairs.length)

/-- The measurement pass on one record, as performed by
`AnimalMeasurementTool.run`: `_preprocess_coordinates` followed by
`_calculate_all_metrics`. -/
def processRecord (r : AnnRecord) : AnnRecord × ℕ :=
  _calculate_all_metrics (_preprocess_coordinates r)

/-- The qualifying objects of a record: the `objs_with_eyes` list that the
measurement pass builds for it (the objects carrying both landmarks). -/
def qualOf (r : AnnRecord) : List MObj :=
  objsWithEyes ((_preprocess_coordinates r).objects)

end AnimalMeasurementTool

namespace AnimalEyePipeline

/-- One object entry as seen by the eye-refinement stage
(`eyes_extractor.py`).  Only the `eyes` field is read and written by the
loop body modelled here; `none` models an absent `"eyes"` key and the
list entries are the serialized contour strings. -/
structure RObj where
  eyes : Option (List String) := none
deriving DecidableEq

/-- The skip test of `AnimalEyePipeline.run`:
`if "eyes" in obj and obj["eyes"]` — key present with a truthy
(non-empty) list. -/
def hasEyesData (o : RObj) : Bool :=
  match o.eyes with
  | some es => !es.isEmpty
  | none => false

/-- One iteration of the object loop of `run` on object number `i`:
skip when eye data is already present, otherwise invoke the detector
(`_process_sam_eyes`, abstracted as `det`, a function of the object
index since its input — the masked base image — depends only on fields
the stage never mutates) and write the result into the `eyes` field.
The boolean records whether the detector was invoked. -/
def procObj (det : ℕ → List String) (i : ℕ) (o : RObj) : RObj × Bool :=
  if hasEyesData o then (o, false) else ({ o with eyes := some (det i) }, true)

/-- The object loop of `run` starting at index `i`, returning each
processed object together with its detector-invocation flag. -/
def runObjsFrom (det : ℕ → List String) (i : ℕ) : List RObj → List (RObj × Bool)
  | [] => []
  | o :: rest => procObj det i o :: runObjsFrom det (i + 1) rest

/-- One full pass of the refinement stage over the objects of an image. -/
def runStage (det : ℕ → List String) (objs : List RObj) : List (RObj × Bool) :=
  runObjsFrom det 0 objs

/-- The object list produced by a pass (forgetting the invocation flags). -/
def stageObjs (det : ℕ → List String) (objs : List RObj) : List RObj :=
  (runStage det objs).map Prod.fst

/-- A BGR pixel value; `cv2.fillPoly(..., (0, 0, 0))` and
`np.zeros_like` write the neutral value `black`. -/
abbrev Color : Type := ℕ × ℕ × ℕ

/-- The neutral zero color. -/
def black : Color := (0, 0, 0)

/-- An image as a total pixel map. -/
abbrev Image : Type := Pt → Color

/-- A bounding box `x1, y1, x2, y2` as stored in `obj["bbox"]`. -/
structure BBox where
  x1 : ℤ
  y1 : ℤ
  x2 : ℤ
  y2 : ℤ

/-- One object entry as seen by the masking step: its bounding box and
the rasterized region of its primary segmentation contour.  `none`
models a contour whose parse raises (`except: pass` — the sibling is
skipped for masking purposes); `some reg` abstracts the pixel set that
`cv2.fillPoly` fills for the parsed contour. -/
structure SegObj where
  bbox : BBox
  seg : Option (Pt → Bool)

/-- Membership of a pixel in the numpy slice `[y1:y2, x1:x2]` of a
bounding box (end-exclusive on both axes). -/
def inBBox (b : BBox) (p : Pt) : Bool :=
  decide (b.x1 ≤ p.1) && decide (p.1 < b.x2) &&
  decide (b.y1 ≤ p.2) && decide (p.2 < b.y2)

/-- `cv2.fillPoly(img, [pts], (0, 0, 0))`: set every pixel of the
rasterized region to the neutral color. -/
def fillPoly (img : Image) (region : Pt → Bool) : Image :=
  fun p => if region p then black else img p

/-- The sibling-masking loop of `_process_sam_eyes`
(`for other_idx, other_obj in enumerate(all_objects)` starting at index
`i`): fill every parsed sibling contour except the target's with the
neutral color. -/
def maskSiblingsFrom (t : ℕ) : Image → ℕ → List SegObj → Image
  | img, _, [] => img
  | img, i, o :: rest =>
      let img2 :=
        if i = t then img
        else
          match o.seg with
          | some reg => fillPoly img reg
          | none => img
      maskSiblingsFrom t img2 (i + 1) rest

/-- The `clean_img` built by `_process_sam_eyes`: the base image with all
sibling regions of the target blacked out. -/
def maskSiblings (img : Image) (objs : List SegObj) (t : ℕ) : Image :=
  maskSiblingsFrom t img 0 objs

/-- The `masked_input` handed to the refinement detector:
`np.zeros_like` outside the target's bounding box, `clean_img` inside
(`masked_input[y1:y2, x1:x2] = clean_img[y1:y2, x1:x2]`).  As in the
source, the target object and its index are passed separately alongside
the full object list. -/
def maskedInput (img : Image) (obj : SegObj) (objIndex : ℕ)
    (allObjects : List SegObj) : Image :=
  fun p =>
    if inBBox obj.bbox p then maskSiblings img allObjects objIndex p else black

/-- A per-image entry as seen by the run loop of the refinement stage:
whether `cv2.imread` succeeds for the image (`imgOk = false` models the
`img_bgr is None` skip) and its object list. -/
structure RImage where
  imgOk : Bool := true
  objects : List RObj := []
deriving DecidableEq

/-- The object loop of `run` under a cooperative cancellation signal,
modelled as a budget of detector calls that may still complete: the
operator interrupt (`KeyboardInterrupt`) fires just before the first
detector launch beyond the budget — a detector call in progress is not
itself cancellable, so completed calls have already been merged into the
record.  Returns the (partially) mutated object list, the remaining
budget and whether the interrupt fired. -/
def runObjsBudget (det : ℕ → List String) : ℕ → ℕ → List RObj → List RObj × ℕ × Bool
  | _, b, [] => ([], b, false)
  | i, b, o :: rest =>
      if hasEyesData o then
        let r := runObjsBudget det (i + 1) b rest
        (o :: r.1, r.2)
      else
        match b with
        | 0 => (o :: rest, 0, true)
        | b' + 1 =>
            let r := runObjsBudget det (i + 1) b' rest
            ({ o with eyes := some (det i) } :: r.1, r.2)

/-- The image loop of `run` under the same cancellation budget.  An
unreadable image is skipped (`continue`); once the interrupt fires the
loop stops launching detector calls and falls through to the `finally`
block, so the returned association list is exactly the state that
`save_results` persists — the best-available partial state, whether the
loop ended normally or by interrupt. -/
def runBudget (det : String → ℕ → List String) :
    ℕ → List (String × RImage) → List (String × RImage) × ℕ × Bool
  | b, [] => ([], b, false)
  | b, (name, img) :: rest =>
      if img.imgOk then
        let ro := runObjsBudget (det name) 0 b img.objects
        if ro.2.2 then
          ((name, { img with objects := ro.1 }) :: rest, 0, true)
        else
          let r := runBudget det ro.2.1 rest
          ((name, { img with objects := ro.1 }) :: r.1, r.2)
      else
        let r := runBudget det b rest
        ((name, img) :: r.1, r.2)

/-- The uninterrupted refinement run over a dataset: every readable
image's objects go through one full pass of the stage. -/
def runFullData (det : String → ℕ → List String)
    (data : List (String × RImage)) : List (String × RImage) :=
  data.map fun e =>
    if e.2.imgOk then (e.1, { e.2 with objects := stageObjs (det e.1) e.2.objects })
    else e

/-- Object number `k` of image number `j` of a dataset, when present. -/
def objAt (data : List (String × RImage)) (j k : ℕ) : Option RObj :=
  (data.get? j).bind fun e => e.2.objects.get? k

end AnimalEyePipeline

namespace TestVerifier

/-- One row of the ground-truth CSV. -/
structure GTRow where
  imageName : String
  dtype : String
  objId1 : String
  objId2 : String
  expectedDist : ℚ
deriving DecidableEq

/-- Classification of one ground-truth row by `TestVerifier.run`. -/
inductive RowResult : Type
  /-- No computed value exists (`actual is None`). -/
  | miss : RowResult
  /-- Computed value exactly zero while the expected one is not. -/
  | detectFail : RowResult
  /-- Both present: contributes to the error total. -/
  | matched : RowResult
deriving DecidableEq

/-- Canonicalize a pair of identifiers: `tuple(sorted([id1, id2]))`. -/
def sortedIds (a b : String) : String × String := if a ≤ b then (a, b) else (b, a)

/-- Look up the computed value for one ground-truth row:
`sys_individual_map` for `Individual` rows, `sys_pair_map` under the
sorted identifier pair for `Pair` rows, `None` otherwise. -/
def lookupActual (sysInd : String × String → Option ℚ)
    (sysPair : String × (String × String) → Option ℚ) (row : GTRow) : Option ℚ :=
  if row.dtype = "Individual" then sysInd (row.imageName, row.objId1)
  else if row.dtype = "Pair" then
    sysPair (row.imageName, sortedIds row.objId1 row.objId2)
  else none

/-- The three-way classification performed by the comparison loop of
`TestVerifier.run`. -/
def classifyRow (actual : Option ℚ) (expect : ℚ) : RowResult :=
  match actual with
  | none => .miss
  | some a => if a = 0 ∧ expect ≠ 0 then .detectFail else .matched

/-- The accumulators of the comparison loop:
`(total_error, match_count, miss_count)` after processing the rows (both
misses and detection failures increment `miss_count`; only matches add
`abs(actual - expect)` to `total_error` and increment `match_count`). -/
def tallyRows (sysInd : String × String → Option ℚ)
    (sysPair : String × (String × String) → Option ℚ) :
    List GTRow → ℚ × ℕ × ℕ
  | [] => (0, 0, 0)
  | row :: rest =>
      let t := tallyRows sysInd sysPair rest
      let actual := lookupActual sysInd sysPair row
      match classifyRow actual row.expectedDist with
      | .miss => (t.1, t.2.1, t.2.2 + 1)
      | .detectFail => (t.1, t.2.1, t.2.2 + 1)
      | .matched => (|actual.getD 0 - row.expectedDist| + t.1, t.2.1 + 1, t.2.2)

/-- The reported mean absolute error: `total_error / match_count`,
reported only when at least one row matched. -/
def maeReport (sysInd : String × String → Option ℚ)
    (sysPair : String × (String × String) → Option ℚ)
    (rows : List GTRow) : Option ℚ :=
  let t := tallyRows sysInd sysPair rows
  if t.2.1 = 0 then none else some (t.1 / (t.2.1 : ℚ))

end TestVerifier

/-!  Concrete inputs used by the end-to-end claims and by witnesses. -/

namespace Examples

open AnimalMeasurementTool AnimalEyePipeline TestVerifier

/-- A 10-pixel square eye contour centered at (50, 50). -/
def sqA1 : List Pt := [(45, 45), (55, 45), (55, 55), (45, 55)]

/-- A 10-pixel square eye contour centered at (70, 50). -/
def sqA2 : List Pt := [(65, 45), (75, 45), (75, 55), (65, 55)]

/-- A 10-pixel square eye contour centered at (150, 50). -/
def sqB1 : List Pt := [(145, 45), (155, 45), (155, 55), (145, 55)]

/-- A 10-pixel square eye contour centered at (170, 50). -/
def sqB2 : List Pt := [(165, 45), (175, 45), (175, 55), (165, 55)]

/-- The 200×200 two-object record of the end-to-end test: object A
carries the two squares centered at (50,50)/(70,50), object B the two
centered at (150,50)/(170,50). -/
def recC2 : AnnRecord :=
  { width := 200, height := 200
    objects := [{ object_id := some "1", eyes := [sqA1, sqA2] },
                { object_id := some "2", eyes := [sqB1, sqB2] }]
    pairs := [] }

/-- Rasterized axis-aligned square region (end-exclusive), standing in
for the filled polygon of a square primary contour. -/
def segSq (x1 y1 x2 y2 : ℤ) : Pt → Bool := fun p =>
  decide (x1 ≤ p.1) && decide (p.1 < x2) && decide (y1 ≤ p.2) && decide (p.2 < y2)

/-- Object A of the masking witness: a square region with matching
bounding box. -/
def mObjA : SegObj := { bbox := ⟨40, 40, 80, 80⟩, seg := some (segSq 40 40 80 80) }

/-- Object B of the masking witness: a non-overlapping square region. -/
def mObjB : SegObj := { bbox := ⟨140, 40, 180, 80⟩, seg := some (segSq 140 40 180 80) }

/-- A base image with a constant non-zero color everywhere. -/
def baseImg : Image := fun _ => (7, 7, 7)

/-- The single ground-truth row of the verifier witness: an `Individual`
row expecting distance 20.00. -/
def gtRow : GTRow :=
  { imageName := "img.jpg", dtype := "Individual"
    objId1 := "3", objId2 := "", expectedDist := 20 }

/-- A computed-individual map holding 22.50 for the witness row. -/
def sysIndW : String × String → Option ℚ := fun k =>
  if k = ("img.jpg", "3") then some (45 / 2) else none

/-- An empty computed-pair map. -/
def sysPairW : String × (String × String) → Option ℚ := fun _ => none

end Examples

/-!  Helper lemmas. -/

/-- Truncation toward zero lands strictly within one unit of the exact
value. -/
theorem abs_pyTrunc_sub_lt (q : ℚ) : |(pyTrunc q : ℚ) - q| < 1 := by
  unfold pyTrunc
  split
  · have h1 := Int.floor_le q
    have h2 := Int.lt_floor_add_one q
    rw [abs_lt]
    constructor <;> linarith
  · have h1 := Int.le_ceil q
    have h2 := Int.ceil_lt_add_one q
    rw [abs_lt]
    constructor <;> linarith

/-- Truncation toward zero stays within any integer bounds that enclose
the exact value. -/
theorem pyTrunc_mem_bounds (lo hi : ℤ) (q : ℚ) (h1 : (lo : ℚ) ≤ q)
    (h2 : q ≤ (hi : ℚ)) : lo ≤ pyTrunc q ∧ pyTrunc q ≤ hi := by
  unfold pyTrunc
  split
  · refine ⟨Int.le_floor.mpr h1, ?_⟩
    have := Int.floor_le_floor h2
    simpa using this
  · refine ⟨?_, Int.ceil_le.mpr h2⟩
    have := Int.ceil_le_ceil h1
    simpa using this

/-- A list of integers within bounds has its sum within the scaled
bounds. -/
theorem list_sum_bounds (l : List ℤ) (lo hi : ℤ)
    (h : ∀ x ∈ l, lo ≤ x ∧ x ≤ hi) :
    lo * l.length ≤ l.sum ∧ l.sum ≤ hi * l.length := by
  induction l with
  | nil => simp
  | cons x xs ih =>
    have hx := h x (List.mem_cons_self x xs)
    have hxs := ih fun y hy => h y (List.mem_cons_of_mem x hy)
    have e1 : lo * ((x :: xs).length : ℤ) = lo * xs.length + lo := by
      push_cast [List.length_cons]; ring
    have e2 : hi * ((x :: xs).length : ℤ) = hi * xs.length + hi := by
      push_cast [List.length_cons]; ring
    rw [List.sum_cons, e1, e2]
    constructor <;> linarith [hxs.1, hxs.2, hx.1, hx.2]

/-- The rational mean of a nonempty integer list lies within any bounds
enclosing all its entries. -/
theorem mean_mem_bounds (l : List ℤ) (lo hi : ℤ) (hne : l ≠ [])
    (h : ∀ x ∈ l, lo ≤ x ∧ x ≤ hi) :
    (lo : ℚ) ≤ (l.sum : ℚ) / (l.length : ℚ) ∧
      (l.sum : ℚ) / (l.length : ℚ) ≤ (hi : ℚ) := by
  have hl : 0 < (l.length : ℚ) := by
    have := List.length_pos.mpr hne
    exact_mod_cast this
  have hb := list_sum_bounds l lo hi h
  constructor
  · rw [le_div_iff₀ hl]
    exact_mod_cast hb.1
  · rw [div_le_iff₀ hl]
    exact_mod_cast hb.2

namespace AnimalMeasurementTool

/-- Preprocessing never changes the `eyes` field. -/
theorem _preprocess_obj_eyes (o : MObj) : (_preprocess_obj o).eyes = o.eyes := by
  rcases he : o.eyes with _ | ⟨e1, _ | ⟨e2, _ | ⟨e3, tl⟩⟩⟩ <;>
    simp [_preprocess_obj, he]

/-- An object without exactly two eye contours is left untouched by
preprocessing. -/
theorem _preprocess_obj_of_ne (o : MObj) (h : o.eyes.length ≠ 2) :
    _preprocess_obj o = o := by
  rcases he : o.eyes with _ | ⟨e1, _ | ⟨e2, _ | ⟨e3, tl⟩⟩⟩ <;>
    simp_all [_preprocess_obj, he]

/-- A fresh object that comes out of preprocessing with a temporary left
landmark must have had exactly two eye contours. -/
theorem _preprocess_obj_len2 (o : MObj) (h0 : o.tmpL = none)
    (h : (_preprocess_obj o).tmpL.isSome = true) : o.eyes.length = 2 := by
  rcases he : o.eyes with _ | ⟨e1, _ | ⟨e2, _ | ⟨e3, tl⟩⟩⟩ <;>
    simp_all [_preprocess_obj, he]

/-- Metric assignment never changes the temporary left landmark. -/
theorem metricsObj_tmpL (o : MObj) : (metricsObj o).tmpL = o.tmpL := by
  unfold metricsObj
  rcases h1 : o.tmpL with _ | l <;> rcases h2 : o.tmpR with _ | r <;> simp [h1, h2]

/-- Metric assignment never changes the temporary right landmark. -/
theorem metricsObj_tmpR (o : MObj) : (metricsObj o).tmpR = o.tmpR := by
  unfold metricsObj
  rcases h1 : o.tmpL with _ | l <;> rcases h2 : o.tmpR with _ | r <;> simp [h1, h2]

/-- Metric assignment never changes the `eyes` field. -/
theorem metricsObj_eyes (o : MObj) : (metricsObj o).eyes = o.eyes := by
  unfold metricsObj
  rcases h1 : o.tmpL with _ | l <;> rcases h2 : o.tmpR with _ | r <;> simp [h1, h2]

/-- An object without a temporary left landmark receives no metrics. -/
theorem metricsObj_of_none (o : MObj) (h : o.tmpL = none) : metricsObj o = o := by
  unfold metricsObj
  rw [h]

/-- Clearing absent temporary keys is the identity. -/
theorem clearTmp_id (o : MObj) (h1 : o.tmpL = none) (h2 : o.tmpR = none) :
    clearTmp o = o := by
  cases o
  simp_all [clearTmp]

/-- The objects written by the measurement pass are the composite of the
three per-object maps. -/
theorem processRecord_objects_get (r : AnnRecord) (k : ℕ) (o : MObj)
    (hk : r.objects.get? k = some o) :
    (processRecord r).1.objects.get? k =
      some (clearTmp (metricsObj (_preprocess_obj o))) := by
  show (((r.objects.map _preprocess_obj).map metricsObj).map clearTmp).get? k = _
  simp only [List.get?_map, hk, Option.map_some']

/-- The two-element sort is ascending in x and keeps the input order on
ties. -/
theorem sortByX2_spec (c : Pt × Pt) :
    (sortByX2 c).1.1 ≤ (sortByX2 c).2.1 ∧ (c.1.1 = c.2.1 → sortByX2 c = c) := by
  unfold sortByX2
  split
  · rename_i h
    exact ⟨le_of_lt h, fun heq => absurd heq (by omega)⟩
  · rename_i h
    exact ⟨by omega, fun _ => rfl⟩

/-- C3: an object whose eye sequence does not have exactly two contours is
excluded from metric computation entirely — the measurement pass leaves
the object unchanged (no intra-object distance, no landmark fields), it
is not among the qualifying objects, and the pair list is generated only
from the qualifying objects, all of which carry exactly two eye
contours. -/
theorem C3_nonqualifying_excluded (r : AnnRecord) (k : ℕ) (o : MObj)
    (hfresh : ∀ q ∈ r.objects, q.tmpL = none ∧ q.tmpR = none)
    (hk : r.objects.get? k = some o) (hlen : o.eyes.length ≠ 2) :
    (processRecord r).1.objects.get? k = some o ∧
    o ∉ qualOf r ∧
    (processRecord r).1.pairs = (pairCombs (qualOf r)).map (fun ab => mkPair ab.1 ab.2) ∧
    (∀ q ∈ qualOf r, q.eyes.length = 2) := by
  have hmem : o ∈ r.objects := List.get?_mem hk
  obtain ⟨hL, hR⟩ := hfresh o hmem
  have hpre : _preprocess_obj o = o := _preprocess_obj_of_ne o hlen
  have hmet : metricsObj o = o := metricsObj_of_none o hL
  refine ⟨?_, ?_, rfl, ?_⟩
  · rw [processRecord_objects_get r k o hk, hpre, hmet, clearTmp_id o hL hR]
  · intro hq
    have := (List.mem_filter.mp hq).2
    rw [hL] at this
    simp at this
  · intro q hq
    obtain ⟨hq1, hq2⟩ := List.mem_filter.mp hq
    rcases List.mem_map.mp hq1 with ⟨q1, hq1m, rfl⟩
    rcases List.mem_map.mp hq1m with ⟨q0, hq0, rfl⟩
    obtain ⟨h0L, _⟩ := hfresh q0 hq0
    have hsome : (_preprocess_obj q0).tmpL.isSome = true := by
      rw [metricsObj_tmpL] at hq2
      exact (Bool.and_eq_true_iff.mp hq2).1
    have hlen2 := _preprocess_obj_len2 q0 h0L hsome
    rw [metricsObj_eyes, _preprocess_obj_eyes]
    exact hlen2

/-- Witness for C3: a fresh single-object record whose object carries one
eye contour is passed through unchanged and yields no pairs. -/
theorem C3_nonqualifying_excluded_witness :
    (processRecord { objects := [{ object_id := some "9", eyes := [Examples.sqA1] }] }).1.objects.get? 0 =
      some { object_id := some "9", eyes := [Examples.sqA1] } ∧
    ({ object_id := some "9", eyes := [Examples.sqA1] } : MObj) ∉
      qualOf { objects := [{ object_id := some "9", eyes := [Examples.sqA1] }] } ∧
    (processRecord { objects := [{ object_id := some "9", eyes := [Examples.sqA1] }] }).1.pairs = [] := by
  have h := C3_nonqualifying_excluded
    { objects := [{ object_id := some "9", eyes := [Examples.sqA1] }] } 0
    { object_id := some "9", eyes := [Examples.sqA1] }
    (by intro q hq; simp at hq; simp [hq]) rfl (by simp [Examples.sqA1])
  refine ⟨h.1, h.2.1, ?_⟩
  rw [h.2.2.1]
  rfl

/-- C4: for an object with exactly two eye contours the two centroids are
sorted by horizontal coordinate ascending and stored as the left and
right landmarks, so the stored left x-coordinate never exceeds the stored
right x-coordinate, and at equal x-coordinates the assignment keeps the
input order. -/
theorem C4_left_right_order (r : AnnRecord) (k : ℕ) (o : MObj) (e1 e2 : List Pt)
    (hk : r.objects.get? k = some o) (he : o.eyes = [e1, e2]) :
    ∃ o', (processRecord r).1.objects.get? k = some o' ∧
      o'.eye_L_center = some (sortByX2 (_get_centroid e1, _get_centroid e2)).1 ∧
      o'.eye_R_center = some (sortByX2 (_get_centroid e1, _get_centroid e2)).2 ∧
      (sortByX2 (_get_centroid e1, _get_centroid e2)).1.1 ≤
        (sortByX2 (_get_centroid e1, _get_centroid e2)).2.1 ∧
      ((_get_centroid e1).1 = (_get_centroid e2).1 →
        sortByX2 (_get_centroid e1, _get_centroid e2) =
          (_get_centroid e1, _get_centroid e2)) := by
  have hpre : _preprocess_obj o =
      { o with tmpL := some (sortByX2 (_get_centroid e1, _get_centroid e2)).1,
               tmpR := some (sortByX2 (_get_centroid e1, _get_centroid e2)).2 } := by
    simp [_preprocess_obj, he]
  refine ⟨clearTmp (metricsObj (_preprocess_obj o)),
    processRecord_objects_get r k o hk, ?_, ?_,
    (sortByX2_spec (_get_centroid e1, _get_centroid e2)).1,
    fun h => (sortByX2_spec (_get_centroid e1, _get_centroid e2)).2 h⟩ <;>
  · rw [hpre]
    simp [metricsObj, clearTmp]

end AnimalMeasurementTool

namespace AnimalMeasurementTool

/-- C5: the centroid computation is total — when the signed polygon area
is non-zero it returns the truncated area-weighted centroid, and for
every contour with zero signed area (the degenerate/collinear case) it
falls back to the truncated arithmetic mean of the points, yielding a
valid centroid (within the coordinate bounds of the contour) rather than
an arithmetic error. -/
theorem C5_centroid_total (pts : List Pt) (hne : pts ≠ []) :
    (m00 pts ≠ 0 →
      _get_centroid pts = (pyTrunc (m10 pts / m00 pts), pyTrunc (m01 pts / m00 pts))) ∧
    (m00 pts = 0 →
      _get_centroid pts = (pyTrunc (meanX pts), pyTrunc (meanY pts))) ∧
    (m00 pts = 0 → ∀ lo hi : ℤ, (∀ p ∈ pts, lo ≤ p.1 ∧ p.1 ≤ hi) →
      lo ≤ (_get_centroid pts).1 ∧ (_get_centroid pts).1 ≤ hi) ∧
    (m00 pts = 0 → ∀ lo hi : ℤ, (∀ p ∈ pts, lo ≤ p.2 ∧ p.2 ≤ hi) →
      lo ≤ (_get_centroid pts).2 ∧ (_get_centroid pts).2 ≤ hi) := by
  refine ⟨fun h => by simp [_get_centroid, h], fun h => by simp [_get_centroid, h],
    fun h lo hi hb => ?_, fun h lo hi hb => ?_⟩
  · have hx : _get_centroid pts = (pyTrunc (meanX pts), pyTrunc (meanY pts)) := by
      simp [_get_centroid, h]
    have hmap : (pts.map fun p => p.1) ≠ [] := by
      simpa using hne
    have hb' : ∀ x ∈ pts.map fun p => p.1, lo ≤ x ∧ x ≤ hi := by
      intro x hx'
      rcases List.mem_map.mp hx' with ⟨p, hp, rfl⟩
      exact hb p hp
    have hm := mean_mem_bounds _ lo hi hmap hb'
    rw [List.length_map] at hm
    rw [hx]
    exact pyTrunc_mem_bounds lo hi (meanX pts) hm.1 hm.2
  · have hx : _get_centroid pts = (pyTrunc (meanX pts), pyTrunc (meanY pts)) := by
      simp [_get_centroid, h]
    have hmap : (pts.map fun p => p.2) ≠ [] := by
      simpa using hne
    have hb' : ∀ x ∈ pts.map fun p => p.2, lo ≤ x ∧ x ≤ hi := by
      intro x hx'
      rcases List.mem_map.mp hx' with ⟨p, hp, rfl⟩
      exact hb p hp
    have hm := mean_mem_bounds _ lo hi hmap hb'
    rw [List.length_map] at hm
    rw [hx]
    exact pyTrunc_mem_bounds lo hi (meanY pts) hm.1 hm.2

/-- Witness for C5 at the degenerate 3-point collinear contour
`[(0,0), (1,1), (2,2)]`: zero signed area, fallback centroid `(1, 1)`,
within the bounds of the points. -/
theorem C5_centroid_total_witness :
    m00 [((0:ℤ), (0:ℤ)), (1, 1), (2, 2)] = 0 ∧
    _get_centroid [((0:ℤ), (0:ℤ)), (1, 1), (2, 2)] = (1, 1) ∧
    0 ≤ (_get_centroid [((0:ℤ), (0:ℤ)), (1, 1), (2, 2)]).1 ∧
    (_get_centroid [((0:ℤ), (0:ℤ)), (1, 1), (2, 2)]).1 ≤ 2 := by
  have h := C5_centroid_total [((0:ℤ), (0:ℤ)), (1, 1), (2, 2)] (by simp)
  have h0 : m00 [((0:ℤ), (0:ℤ)), (1, 1), (2, 2)] = 0 := by
    with_unfolding_all decide
  have hb := h.2.2.1 h0 0 2 (by decide)
  refine ⟨h0, ?_, hb.1, hb.2⟩
  rw [h.2.1 h0]
  with_unfolding_all decide

/-- C10: every centroid has integer coordinates obtained by truncation
toward zero — the moment quotient when the area is non-zero, the
arithmetic mean in the zero-area fallback — and in both cases each stored
coordinate differs from the exact rational value by strictly less than
one pixel. -/
theorem C10_centroid_truncation (pts : List Pt) :
    (m00 pts ≠ 0 →
      (_get_centroid pts).1 = pyTrunc (m10 pts / m00 pts) ∧
      (_get_centroid pts).2 = pyTrunc (m01 pts / m00 pts) ∧
      |((_get_centroid pts).1 : ℚ) - m10 pts / m00 pts| < 1 ∧
      |((_get_centroid pts).2 : ℚ) - m01 pts / m00 pts| < 1) ∧
    (m00 pts = 0 →
      (_get_centroid pts).1 = pyTrunc (meanX pts) ∧
      (_get_centroid pts).2 = pyTrunc (meanY pts) ∧
      |((_get_centroid pts).1 : ℚ) - meanX pts| < 1 ∧
      |((_get_centroid pts).2 : ℚ) - meanY pts| < 1) := by
  constructor
  · intro h
    have hx : _get_centroid pts =
        (pyTrunc (m10 pts / m00 pts), pyTrunc (m01 pts / m00 pts)) := by
      simp [_get_centroid, h]
    rw [hx]
    exact ⟨rfl, rfl, abs_pyTrunc_sub_lt _, abs_pyTrunc_sub_lt _⟩
  · intro h
    have hx : _get_centroid pts = (pyTrunc (meanX pts), pyTrunc (meanY pts)) := by
      simp [_get_centroid, h]
    rw [hx]
    exact ⟨rfl, rfl, abs_pyTrunc_sub_lt _, abs_pyTrunc_sub_lt _⟩

/-- Witness for C10 at the right triangle `[(0,0), (4,0), (0,3)]`, whose
exact centroid is `(4/3, 1)` and whose stored centroid is `(1, 1)`. -/
theorem C10_centroid_truncation_witness :
    m00 [((0:ℤ), (0:ℤ)), (4, 0), (0, 3)] ≠ 0 ∧
    (_get_centroid [((0:ℤ), (0:ℤ)), (4, 0), (0, 3)]).1 =
      pyTrunc (m10 [((0:ℤ), (0:ℤ)), (4, 0), (0, 3)] / m00 [((0:ℤ), (0:ℤ)), (4, 0), (0, 3)]) ∧
    |((_get_centroid [((0:ℤ), (0:ℤ)), (4, 0), (0, 3)]).1 : ℚ) -
      m10 [((0:ℤ), (0:ℤ)), (4, 0), (0, 3)] / m00 [((0:ℤ), (0:ℤ)), (4, 0), (0, 3)]| < 1 := by
  have h0 : m00 [((0:ℤ), (0:ℤ)), (4, 0), (0, 3)] ≠ 0 := by
    with_unfolding_all decide
  have h := (C10_centroid_truncation [((0:ℤ), (0:ℤ)), (4, 0), (0, 3)]).1 h0
  exact ⟨h0, h.1, h.2.2.1⟩

/-- The pair combination list has one entry per unordered pair of
positions. -/
theorem pairCombs_length {α : Type} (l : List α) :
    (pairCombs l).length = l.length.choose 2 := by
  induction l with
  | nil => rfl
  | cons x xs ih =>
    simp only [pairCombs, List.length_append, List.length_map, ih,
      List.length_cons, Nat.choose_succ_succ, Nat.choose_one_right]

/-- Every ordered position pair is represented in the pair combination
list, earlier element first. -/
theorem pairCombs_mem {α : Type} (l : List α) (i j : ℕ) (hij : i < j)
    (hj : j < l.length) :
    (l.get ⟨i, hij.trans hj⟩, l.get ⟨j, hj⟩) ∈ pairCombs l := by
  induction l generalizing i j with
  | nil => simp at hj
  | cons x xs ih =>
    cases i with
    | zero =>
      cases j with
      | zero => exact absurd hij (lt_irrefl 0)
      | succ j' =>
        apply List.mem_append_left
        have hj' : j' < xs.length := by simpa using hj
        exact List.mem_map.mpr ⟨xs.get ⟨j', hj'⟩, List.get_mem xs j' hj', rfl⟩
    | succ i' =>
      cases j with
      | zero => exact absurd hij (by omega)
      | succ j' =>
        apply List.mem_append_right
        have hj' : j' < xs.length := by simpa using hj
        exact ih i' j' (by omega) hj'

/-- Every entry of the pair combination list is an ordered position
pair, earlier element first. -/
theorem mem_pairCombs {α : Type} (l : List α) (p : α × α) (hp : p ∈ pairCombs l) :
    ∃ i j, ∃ (hij : i < j) (hj : j < l.length),
      p = (l.get ⟨i, hij.trans hj⟩, l.get ⟨j, hj⟩) := by
  induction l with
  | nil => simp [pairCombs] at hp
  | cons x xs ih =>
    rcases List.mem_append.mp hp with h | h
    · rcases List.mem_map.mp h with ⟨y, hy, rfl⟩
      rcases List.mem_iff_get.mp hy with ⟨⟨j', hj'⟩, rfl⟩
      exact ⟨0, j' + 1, Nat.succ_pos j', Nat.succ_lt_succ hj', rfl⟩
    · rcases ih h with ⟨i, j, hij, hj, rfl⟩
      exact ⟨i + 1, j + 1, Nat.succ_lt_succ hij, Nat.succ_lt_succ hj, rfl⟩

/-- C6: the measurement pass regenerates the pair list wholesale (the
input pair list is irrelevant) as exactly one record per unordered pair
of qualifying objects, built by `mkPair` — identifiers in the insertion
order of the qualifying enumeration, distance the rounded right-landmark
to right-landmark Euclidean distance. -/
theorem C6_pair_generation (r : AnnRecord) (ps : List PairRec) :
    (processRecord r).1.pairs =
      (pairCombs (qualOf r)).map (fun ab => mkPair ab.1 ab.2) ∧
    (processRecord r).1.pairs.length = (qualOf r).length.choose 2 ∧
    (∀ i j (hij : i < j) (hj : j < (qualOf r).length),
      mkPair ((qualOf r).get ⟨i, hij.trans hj⟩) ((qualOf r).get ⟨j, hj⟩) ∈
        (processRecord r).1.pairs) ∧
    (∀ p ∈ (processRecord r).1.pairs,
      ∃ i j, ∃ (hij : i < j) (hj : j < (qualOf r).length),
        p = mkPair ((qualOf r).get ⟨i, hij.trans hj⟩) ((qualOf r).get ⟨j, hj⟩)) ∧
    (processRecord { r with pairs := ps }).1.pairs = (processRecord r).1.pairs := by
  have base : (processRecord r).1.pairs =
      (pairCombs (qualOf r)).map (fun ab => mkPair ab.1 ab.2) := rfl
  refine ⟨base, ?_, ?_, ?_, rfl⟩
  · rw [base, List.length_map, pairCombs_length]
  · intro i j hij hj
    rw [base]
    exact List.mem_map.mpr
      ⟨((qualOf r).get ⟨i, hij.trans hj⟩, (qualOf r).get ⟨j, hj⟩),
        pairCombs_mem (qualOf r) i j hij hj, rfl⟩
  · intro p hp
    rw [base] at hp
    rcases List.mem_map.mp hp with ⟨ab, hab, rfl⟩
    rcases mem_pairCombs (qualOf r) ab hab with ⟨i, j, hij, hj, rfl⟩
    exact ⟨i, j, hij, hj, rfl⟩

end AnimalMeasurementTool

namespace Examples

open AnimalMeasurementTool

/-- Witness for C6 at the two-object record: two qualifying objects, one
pair, and an arbitrary stale pair list is discarded. -/
theorem C6_pair_generation_witness :
    (qualOf recC2).length = 2 ∧
    (processRecord recC2).1.pairs.length = (qualOf recC2).length.choose 2 ∧
    (processRecord { recC2 with
        pairs := [{ obj_1_id := "a", obj_2_id := "b", right_eye_dist := 0 }] }).1.pairs
      = (processRecord recC2).1.pairs := by
  have h := C6_pair_generation recC2
    [{ obj_1_id := "a", obj_2_id := "b", right_eye_dist := 0 }]
  have hlen : (qualOf recC2).length = 2 := by with_unfolding_all decide
  exact ⟨hlen, h.2.1, h.2.2.2.2⟩

/-- C2: on the 200×200 two-object record the measurement pass writes
intra-object distance 20.00 for object A and for object B, and exactly
one pair record, between the right landmarks (70,50) and (170,50), with
distance 100.00. -/
theorem C2_end_to_end :
    processRecord recC2 =
      ({ width := 200, height := 200
         objects := [
           { object_id := some "1", eyes := [sqA1, sqA2],
             eyes_dist := some 20,
             eye_L_center := some (50, 50), eye_R_center := some (70, 50) },
           { object_id := some "2", eyes := [sqB1, sqB2],
             eyes_dist := some 20,
             eye_L_center := some (150, 50), eye_R_center := some (170, 50) }]
         pairs := [{ obj_1_id := "1", obj_2_id := "2", right_eye_dist := 100 }] }, 1) := by
  have e1 : roundDist2 ((50:ℤ), (50:ℤ)) ((70:ℤ), (50:ℤ)) = 20 := by
    have hd : distSq ((50:ℤ), (50:ℤ)) ((70:ℤ), (50:ℤ)) = 400 := by simp [distSq]
    rw [roundDist2, hd]
    norm_num [roundNatSqrt]
  have e2 : roundDist2 ((150:ℤ), (50:ℤ)) ((170:ℤ), (50:ℤ)) = 20 := by
    have hd : distSq ((150:ℤ), (50:ℤ)) ((170:ℤ), (50:ℤ)) = 400 := by simp [distSq]
    rw [roundDist2, hd]
    norm_num [roundNatSqrt]
  have e3 : roundDist2 ((70:ℤ), (50:ℤ)) ((170:ℤ), (50:ℤ)) = 100 := by
    have hd : distSq ((70:ℤ), (50:ℤ)) ((170:ℤ), (50:ℤ)) = 10000 := by simp [distSq]
    rw [roundDist2, hd]
    norm_num [roundNatSqrt]
  have step : processRecord recC2 =
      ({ width := 200, height := 200
         objects := [
           { object_id := some "1", eyes := [sqA1, sqA2],
             eyes_dist := some (roundDist2 ((50:ℤ), (50:ℤ)) ((70:ℤ), (50:ℤ))),
             eye_L_center := some (50, 50), eye_R_center := some (70, 50) },
           { object_id := some "2", eyes := [sqB1, sqB2],
             eyes_dist := some (roundDist2 ((150:ℤ), (50:ℤ)) ((170:ℤ), (50:ℤ))),
             eye_L_center := some (150, 50), eye_R_center := some (170, 50) }]
         pairs := [{ obj_1_id := "1", obj_2_id := "2",
                     right_eye_dist := roundDist2 ((70:ℤ), (50:ℤ)) ((170:ℤ), (50:ℤ)) }] }, 1) := by
    with_unfolding_all rfl
  rw [step, e1, e2, e3]

/-- Witness for C4 at object A of the two-object record. -/
theorem C4_left_right_order_witness :
    ∃ o', (AnimalMeasurementTool.processRecord recC2).1.objects.get? 0 = some o' ∧
      o'.eye_L_center = some (AnimalMeasurementTool.sortByX2
        (AnimalMeasurementTool._get_centroid sqA1, AnimalMeasurementTool._get_centroid sqA2)).1 ∧
      o'.eye_R_center = some (AnimalMeasurementTool.sortByX2
        (AnimalMeasurementTool._get_centroid sqA1, AnimalMeasurementTool._get_centroid sqA2)).2 ∧
      (AnimalMeasurementTool.sortByX2
        (AnimalMeasurementTool._get_centroid sqA1, AnimalMeasurementTool._get_centroid sqA2)).1.1 ≤
      (AnimalMeasurementTool.sortByX2
        (AnimalMeasurementTool._get_centroid sqA1, AnimalMeasurementTool._get_centroid sqA2)).2.1 ∧
      ((AnimalMeasurementTool._get_centroid sqA1).1 =
          (AnimalMeasurementTool._get_centroid sqA2).1 →
        AnimalMeasurementTool.sortByX2
          (AnimalMeasurementTool._get_centroid sqA1, AnimalMeasurementTool._get_centroid sqA2) =
          (AnimalMeasurementTool._get_centroid sqA1, AnimalMeasurementTool._get_centroid sqA2)) :=
  AnimalMeasurementTool.C4_left_right_order recC2 0
    { object_id := some "1", eyes := [sqA1, sqA2] } sqA1 sqA2 rfl rfl

end Examples

namespace AnimalEyePipeline

/-- One loop iteration on an object that already carries eye data skips
it and leaves it unchanged. -/
theorem procObj_of_has (det : ℕ → List String) (i : ℕ) (o : RObj)
    (h : hasEyesData o = true) : procObj det i o = (o, false) := by
  simp [procObj, h]

/-- One loop iteration on an object without eye data invokes the
detector and stores its result. -/
theorem procObj_of_not (det : ℕ → List String) (i : ℕ) (o : RObj)
    (h : hasEyesData o = false) :
    procObj det i o = ({ eyes := some (det i) }, true) := by
  simp [procObj, h]

/-- Re-running one loop iteration on its own output changes nothing. -/
theorem procObj_fst_idem (det : ℕ → List String) (i : ℕ) (o : RObj) :
    (procObj det i (procObj det i o).1).1 = (procObj det i o).1 := by
  cases h : hasEyesData o with
  | true => rw [procObj_of_has det i o h, procObj_of_has det i o h]
  | false =>
    rw [procObj_of_not det i o h]
    cases h2 : hasEyesData { eyes := some (det i) } with
    | true => rw [procObj_of_has det i _ h2]
    | false => rw [procObj_of_not det i _ h2]

/-- Indexing the processed object list: entry `k` is the loop body
applied to entry `k` of the input, at loop counter `i + k`. -/
theorem runObjsFrom_get? (det : ℕ → List String) (objs : List RObj) (i k : ℕ) :
    (runObjsFrom det i objs).get? k =
      (objs.get? k).map (fun o => procObj det (i + k) o) := by
  induction objs generalizing i k with
  | nil => simp [runObjsFrom]
  | cons o rest ih =>
    cases k with
    | zero => simp [runObjsFrom]
    | succ k' =>
      have harith : i + (k' + 1) = (i + 1) + k' := by omega
      simp only [runObjsFrom, List.get?_cons_succ, ih, harith]

/-- A second pass of the object loop over the output of a first pass
reproduces the first pass's output. -/
theorem runObjsFrom_map_fst_idem (det : ℕ → List String) (objs : List RObj) (i : ℕ) :
    (runObjsFrom det i ((runObjsFrom det i objs).map Prod.fst)).map Prod.fst
      = (runObjsFrom det i objs).map Prod.fst := by
  induction objs generalizing i with
  | nil => rfl
  | cons o rest ih =>
    simp only [runObjsFrom, List.map_cons]
    congr 1
    · exact procObj_fst_idem det i o
    · exact ih (i + 1)

/-- C1 (amended): running the refinement stage twice yields an identical
record, and an object whose eye field is already non-empty is skipped
(not re-invoked, data preserved); but an object whose eye field is empty
— including one whose first-run result was the explicit empty sequence —
is treated as unprocessed and the detector IS re-invoked for it on the
second run. -/
theorem C1_skip_if_present (det : ℕ → List String) (objs : List RObj) :
    stageObjs det (stageObjs det objs) = stageObjs det objs ∧
    (∀ k o, objs.get? k = some o → hasEyesData o = true →
      (runStage det objs).get? k = some (o, false)) ∧
    (∀ k o, objs.get? k = some o → hasEyesData o = false →
      (runStage det objs).get? k = some ({ eyes := some (det k) }, true)) ∧
    (∀ k o, (stageObjs det objs).get? k = some o → o.eyes = some [] →
      (runStage det (stageObjs det objs)).get? k =
        some ({ eyes := some (det k) }, true)) := by
  refine ⟨runObjsFrom_map_fst_idem det objs 0, ?_, ?_, ?_⟩
  · intro k o hk h
    show (runObjsFrom det 0 objs).get? k = _
    rw [runObjsFrom_get? det objs 0 k, hk]
    simp [procObj_of_has det _ o h]
  · intro k o hk h
    show (runObjsFrom det 0 objs).get? k = _
    rw [runObjsFrom_get? det objs 0 k, hk]
    simp [procObj_of_not det _ o h]
  · intro k o hk h
    have hfalse : hasEyesData o = false := by
      simp [hasEyesData, h]
    show (runObjsFrom det 0 (stageObjs det objs)).get? k = _
    rw [runObjsFrom_get? det (stageObjs det objs) 0 k, hk]
    simp [procObj_of_not det _ o hfalse]

/-- Witness for the amended C1 on a two-object record: the object with
data is skipped and preserved, the object without data is refined, and
the second pass reproduces the first. -/
theorem C1_skip_if_present_witness :
    stageObjs (fun _ => ["e"])
        (stageObjs (fun _ => ["e"]) [{ eyes := some ["x"] }, { eyes := none }])
      = stageObjs (fun _ => ["e"]) [{ eyes := some ["x"] }, { eyes := none }] ∧
    (runStage (fun _ => ["e"]) [{ eyes := some ["x"] }, { eyes := none }]).get? 0
      = some ({ eyes := some ["x"] }, false) ∧
    (runStage (fun _ => ["e"]) [{ eyes := some ["x"] }, { eyes := none }]).get? 1
      = some ({ eyes := some ["e"] }, true) := by
  have h := C1_skip_if_present (fun _ => ["e"]) [{ eyes := some ["x"] }, { eyes := none }]
  exact ⟨h.1, h.2.1 0 { eyes := some ["x"] } rfl rfl, h.2.2.1 1 { eyes := none } rfl rfl⟩

/-- Counterexample to C1 as stated: with a detector that finds nothing,
the first run completes the object with the explicit empty sequence, and
the second run re-invokes the detector for that object (invocation flag
`true`) instead of skipping it. -/
theorem C1_counterexample :
    stageObjs (fun _ => ([] : List String)) [({ eyes := none } : RObj)]
      = [{ eyes := some [] }] ∧
    runStage (fun _ => ([] : List String))
        (stageObjs (fun _ => ([] : List String)) [({ eyes := none } : RObj)])
      = [({ eyes := some [] }, true)] :=
  ⟨rfl, rfl⟩

/-- Filling a region never revives a pixel that is already neutral. -/
theorem maskSiblingsFrom_black (t : ℕ) (img : Image) (i : ℕ) (l : List SegObj)
    (p : Pt) (h : img p = black) : maskSiblingsFrom t img i l p = black := by
  induction l generalizing img i with
  | nil => exact h
  | cons o rest ih =>
    simp only [maskSiblingsFrom]
    apply ih
    split
    · exact h
    · cases o.seg with
      | none => exact h
      | some reg =>
        simp only [fillPoly]
        split <;> simp [h]

/-- Any pixel inside a parsed sibling region (an entry other than the
target) comes out of the masking loop neutral. -/
theorem maskSiblingsFrom_hit (t : ℕ) (img : Image) (i : ℕ) (l : List SegObj)
    (p : Pt) (k : ℕ) (hk : k < l.length) (reg : Pt → Bool)
    (hne : i + k ≠ t) (hseg : (l.get ⟨k, hk⟩).seg = some reg)
    (hreg : reg p = true) : maskSiblingsFrom t img i l p = black := by
  induction l generalizing img i k with
  | nil => simp at hk
  | cons o rest ih =>
    cases k with
    | zero =>
      have hne0 : i ≠ t := by simpa using hne
      have hseg0 : o.seg = some reg := hseg
      simp only [maskSiblingsFrom, if_neg hne0, hseg0]
      apply maskSiblingsFrom_black
      simp [fillPoly, hreg]
    | succ k' =>
      have hk' : k' < rest.length := by simpa using hk
      have hne' : (i + 1) + k' ≠ t := by omega
      simp only [maskSiblingsFrom]
      exact ih _ (i + 1) k' hk' hne' hseg

/-- C7: the isolated detector input built by `_process_sam_eyes` is
neutral (zero) at every pixel of every parsed non-target contour region
and at every pixel outside the target's bounding box. -/
theorem C7_mutual_exclusion_mask (img : Image) (objs : List SegObj)
    (obj : SegObj) (t : ℕ) (p : Pt) :
    (∀ k (hk : k < objs.length) (reg : Pt → Bool), k ≠ t →
      (objs.get ⟨k, hk⟩).seg = some reg → reg p = true →
      maskedInput img obj t objs p = black) ∧
    (inBBox obj.bbox p = false → maskedInput img obj t objs p = black) := by
  constructor
  · intro k hk reg hne hseg hreg
    have hmask : maskSiblings img objs t p = black :=
      maskSiblingsFrom_hit t img 0 objs p k hk reg (by simpa using hne) hseg hreg
    unfold maskedInput
    split
    · exact hmask
    · rfl
  · intro h
    unfold maskedInput
    rw [h]
    simp

end AnimalEyePipeline

namespace Examples

open AnimalEyePipeline

/-- Witness for C7: isolating object A of a two-object synthetic image
zeroes a pixel inside object B's region and a pixel outside A's bounding
box. -/
theorem C7_mutual_exclusion_mask_witness :
    maskedInput baseImg mObjA 0 [mObjA, mObjB] (150, 50) = black ∧
    maskedInput baseImg mObjA 0 [mObjA, mObjB] (10, 10) = black := by
  constructor
  · exact (C7_mutual_exclusion_mask baseImg [mObjA, mObjB] mObjA 0 (150, 50)).1
      1 (by decide) (segSq 140 40 180 80) (by decide) rfl (by decide)
  · exact (C7_mutual_exclusion_mask baseImg [mObjA, mObjB] mObjA 0 (10, 10)).2
      (by decide)

end Examples

namespace TestVerifier

/-- The loop accumulators equal their closed forms: the error total is
the sum of absolute errors over the matched rows, the match count is the
number of matched rows, and the miss counter counts every row that did
not match (misses and detection failures alike). -/
theorem tallyRows_spec (si : String × String → Option ℚ)
    (sp : String × (String × String) → Option ℚ) (rows : List GTRow) :
    (tallyRows si sp rows).1 =
      ((rows.filter fun row =>
          decide (classifyRow (lookupActual si sp row) row.expectedDist = RowResult.matched)).map
        fun row => |(lookupActual si sp row).getD 0 - row.expectedDist|).sum ∧
    (tallyRows si sp rows).2.1 =
      (rows.filter fun row =>
        decide (classifyRow (lookupActual si sp row) row.expectedDist = RowResult.matched)).length ∧
    (tallyRows si sp rows).2.2 =
      (rows.filter fun row =>
        decide (¬ classifyRow (lookupActual si sp row) row.expectedDist = RowResult.matched)).length := by
  induction rows with
  | nil => exact ⟨rfl, rfl, rfl⟩
  | cons row rest ih =>
    cases hc : classifyRow (lookupActual si sp row) row.expectedDist with
    | miss =>
      refine ⟨?_, ?_, ?_⟩ <;>
        simp [tallyRows, hc, List.filter_cons, ih.1, ih.2.1, ih.2.2]
    | detectFail =>
      refine ⟨?_, ?_, ?_⟩ <;>
        simp [tallyRows, hc, List.filter_cons, ih.1, ih.2.1, ih.2.2]
    | matched =>
      refine ⟨?_, ?_, ?_⟩ <;>
        simp [tallyRows, hc, List.filter_cons, ih.1, ih.2.1, ih.2.2]

/-- C8: every ground-truth row is classified as exactly one of miss,
detection-failure or match (the three-way `classifyRow`); only matched
rows contribute their absolute error to the total and to the match
count, misses and failures are counted together and excluded from
averaging, and the reported MAE is the error total divided by the match
count alone. -/
theorem C8_verifier_mae (si : String × String → Option ℚ)
    (sp : String × (String × String) → Option ℚ) (rows : List GTRow) :
    (tallyRows si sp rows).1 =
      ((rows.filter fun row =>
          decide (classifyRow (lookupActual si sp row) row.expectedDist = RowResult.matched)).map
        fun row => |(lookupActual si sp row).getD 0 - row.expectedDist|).sum ∧
    (tallyRows si sp rows).2.1 =
      (rows.filter fun row =>
        decide (classifyRow (lookupActual si sp row) row.expectedDist = RowResult.matched)).length ∧
    (tallyRows si sp rows).2.2 =
      (rows.filter fun row =>
        decide (¬ classifyRow (lookupActual si sp row) row.expectedDist = RowResult.matched)).length ∧
    (0 < (tallyRows si sp rows).2.1 →
      maeReport si sp rows =
        some ((tallyRows si sp rows).1 / ((tallyRows si sp rows).2.1 : ℚ))) := by
  have h := tallyRows_spec si sp rows
  refine ⟨h.1, h.2.1, h.2.2, fun hpos => ?_⟩
  unfold maeReport
  rw [if_neg (Nat.pos_iff_ne_zero.mp hpos)]

end TestVerifier

namespace Examples

open TestVerifier

/-- Witness for C8: a single `Individual` row expecting 20.00 with
computed value 22.50 is a match and yields MAE 2.50. -/
theorem C8_verifier_mae_witness :
    classifyRow (lookupActual sysIndW sysPairW gtRow) gtRow.expectedDist =
      RowResult.matched ∧
    tallyRows sysIndW sysPairW [gtRow] = (5 / 2, 1, 0) ∧
    maeReport sysIndW sysPairW [gtRow] = some (5 / 2) := by
  have hl : lookupActual sysIndW sysPairW gtRow = some (45 / 2) := by
    norm_num [lookupActual, sysIndW, sysPairW, gtRow]
  have hc : classifyRow (lookupActual sysIndW sysPairW gtRow) gtRow.expectedDist =
      RowResult.matched := by
    rw [hl]
    norm_num [classifyRow, gtRow]
  have ht : tallyRows sysIndW sysPairW [gtRow] = (5 / 2, 1, 0) := by
    have h0 : tallyRows sysIndW sysPairW [] = (0, 0, 0) := rfl
    have hc' : classifyRow (some (45 / 2)) 20 = RowResult.matched := by
      norm_num [classifyRow]
    simp only [tallyRows, hl, h0]
    norm_num [gtRow, hc']
  have hm := (C8_verifier_mae sysIndW sysPairW [gtRow]).2.2.2
    (by rw [ht]; norm_num)
  rw [ht] at hm
  norm_num at hm
  exact ⟨hc, ht, hm⟩

end Examples

namespace AnimalEyePipeline

/-- With no remaining detector budget the object loop changes nothing
and launches no detector call. -/
theorem runObjsBudget_zero (det : ℕ → List String) (i : ℕ) (objs : List RObj) :
    (runObjsBudget det i 0 objs).1 = objs ∧ (runObjsBudget det i 0 objs).2.1 = 0 := by
  induction objs generalizing i with
  | nil => exact ⟨rfl, rfl⟩
  | cons o rest ih =>
    cases h : hasEyesData o with
    | true =>
      have hr := ih (i + 1)
      simp [runObjsBudget, h, hr.1, hr.2]
    | false => simp [runObjsBudget, h]

/-- Resumability of the object loop: one full pass over the partially
refined list produces the same objects as one full pass over the
original list. -/
theorem runObjsBudget_resume (det : ℕ → List String) (objs : List RObj) (i b : ℕ) :
    (runObjsFrom det i ((runObjsBudget det i b objs).1)).map Prod.fst
      = (runObjsFrom det i objs).map Prod.fst := by
  induction objs generalizing i b with
  | nil => rfl
  | cons o rest ih =>
    cases h : hasEyesData o with
    | true =>
      simp only [runObjsBudget, h, if_true, runObjsFrom, List.map_cons]
      congr 1
      exact ih (i + 1) b
    | false =>
      cases b with
      | zero => simp [runObjsBudget, h]
      | succ b' =>
        simp only [runObjsBudget, h, Bool.false_eq_true, if_false, runObjsFrom,
          List.map_cons]
        congr 1
        · have hidem := procObj_fst_idem det i o
          rw [procObj_of_not det i o h] at hidem
          rw [procObj_of_not det i o h]
          exact hidem
        · exact ih (i + 1) b'

/-- Every entry of the partially refined object list is either the
original object or the object produced by the full pass. -/
theorem runObjsBudget_get? (det : ℕ → List String) (objs : List RObj)
    (i b k : ℕ) :
    (runObjsBudget det i b objs).1.get? k = objs.get? k ∨
    (runObjsBudget det i b objs).1.get? k =
      ((runObjsFrom det i objs).map Prod.fst).get? k := by
  induction objs generalizing i b k with
  | nil => left; rfl
  | cons o rest ih =>
    cases h : hasEyesData o with
    | true =>
      cases k with
      | zero => left; simp [runObjsBudget, h]
      | succ k' =>
        rcases ih (i + 1) b k' with h1 | h1
        · left
          simpa [runObjsBudget, h] using h1
        · right
          simpa [runObjsBudget, h, runObjsFrom] using h1
    | false =>
      cases b with
      | zero => left; simp [runObjsBudget, h]
      | succ b' =>
        cases k with
        | zero =>
          right
          simp [runObjsBudget, h, runObjsFrom, procObj_of_not det i o h]
        | succ k' =>
          rcases ih (i + 1) b' k' with h1 | h1
          · left
            simpa [runObjsBudget, h] using h1
          · right
            simpa [runObjsBudget, h, runObjsFrom] using h1

/-- Resumability of the run loop: the full refinement run applied to the
partial state saved after an interrupt reaches exactly the state of an
uninterrupted full run — no completed work is lost or redone
differently. -/
theorem runBudget_resume (det : String → ℕ → List String)
    (data : List (String × RImage)) (b : ℕ) :
    runFullData det (runBudget det b data).1 = runFullData det data := by
  induction data generalizing b with
  | nil => rfl
  | cons e rest ih =>
    obtain ⟨name, ok, objs⟩ := e
    cases ok with
    | false =>
      have htail := ih b
      simp only [runFullData] at htail
      simp [runBudget, runFullData, htail]
    | true =>
      have hres : stageObjs (det name) (runObjsBudget (det name) 0 b objs).1
          = stageObjs (det name) objs := runObjsBudget_resume (det name) objs 0 b
      cases hint : (runObjsBudget (det name) 0 b objs).2.2 with
      | true =>
        simp [runBudget, hint, runFullData, hres]
      | false =>
        have htail := ih (runObjsBudget (det name) 0 b objs).2.1
        simp only [runFullData] at htail
        simp [runBudget, hint, runFullData, hres, htail]

/-- A run with no remaining budget saves the store unchanged: once the
signal has fired, no further detector call is launched and no field is
touched. -/
theorem runBudget_zero (det : String → ℕ → List String)
    (data : List (String × RImage)) : (runBudget det 0 data).1 = data := by
  induction data with
  | nil => rfl
  | cons e rest ih =>
    obtain ⟨name, ok, objs⟩ := e
    cases ok with
    | false => simp [runBudget, ih]
    | true =>
      have hz := runObjsBudget_zero (det name) 0 objs
      cases hint : (runObjsBudget (det name) 0 0 objs).2.2 with
      | true => simp [runBudget, hint, hz.1]
      | false => simp [runBudget, hint, hz.1, hz.2, ih]

/-- Every object slot of the saved partial state holds either the
original object or the object produced by the uninterrupted full run —
in particular, every detector result completed before the signal is
persisted as-is. -/
theorem runBudget_objAt (det : String → ℕ → List String)
    (data : List (String × RImage)) (b j k : ℕ) :
    objAt (runBudget det b data).1 j k = objAt data j k ∨
    objAt (runBudget det b data).1 j k = objAt (runFullData det data) j k := by
  induction data generalizing b j with
  | nil => left; rfl
  | cons e rest ih =>
    obtain ⟨name, ok, objs⟩ := e
    cases ok with
    | false =>
      cases j with
      | zero => left; simp [runBudget, objAt]
      | succ j' =>
        rcases ih b j' with h1 | h1
        · left
          simpa [runBudget, objAt] using h1
        · right
          simpa [runBudget, objAt, runFullData] using h1
    | true =>
      cases hint : (runObjsBudget (det name) 0 b objs).2.2 with
      | true =>
        cases j with
        | zero =>
          rcases runObjsBudget_get? (det name) objs 0 b k with h1 | h1
          · left
            simpa [runBudget, hint, objAt] using h1
          · right
            simpa [runBudget, hint, objAt, runFullData, stageObjs, runStage]
              using h1
        | succ j' => left; simp [runBudget, hint, objAt]
      | false =>
        cases j with
        | zero =>
          rcases runObjsBudget_get? (det name) objs 0 b k with h1 | h1
          · left
            simpa [runBudget, hint, objAt] using h1
          · right
            simpa [runBudget, hint, objAt, runFullData, stageObjs, runStage]
              using h1
        | succ j' =>
          rcases ih (runObjsBudget (det name) 0 b objs).2.1 j' with h1 | h1
          · left
            simpa [runBudget, hint, objAt] using h1
          · right
            simpa [runBudget, hint, objAt, runFullData] using h1

/-- The saved partial state keeps every image entry in place with its
name and readability flag. -/
theorem runBudget_shape (det : String → ℕ → List String)
    (data : List (String × RImage)) (b : ℕ) :
    (runBudget det b data).1.map (fun e => (e.1, e.2.imgOk))
      = data.map (fun e => (e.1, e.2.imgOk)) := by
  induction data generalizing b with
  | nil => rfl
  | cons e rest ih =>
    obtain ⟨name, ok, objs⟩ := e
    cases ok with
    | false => simp [runBudget, ih b]
    | true =>
      cases hint : (runObjsBudget (det name) 0 b objs).2.2 with
      | true => simp [runBudget, hint]
      | false => simp [runBudget, hint, ih]

/-- C9: an interrupted refinement run (the cancellation signal fires
after a budget of completed detector calls) still persists every
object-level result completed before the signal: the saved store keeps
every image slot (same name, same readability), each object slot holds
either its original value or its completed full-run refinement, a run
whose budget is already exhausted launches no detector call and saves
the store unchanged, and resuming with a full run from the saved state
reaches exactly the uninterrupted result. -/
theorem C9_cancellation_persists (det : String → ℕ → List String)
    (data : List (String × RImage)) (b : ℕ) :
    runFullData det (runBudget det b data).1 = runFullData det data ∧
    (runBudget det 0 data).1 = data ∧
    (∀ j k, objAt (runBudget det b data).1 j k = objAt data j k ∨
      objAt (runBudget det b data).1 j k = objAt (runFullData det data) j k) ∧
    (runBudget det b data).1.map (fun e => (e.1, e.2.imgOk))
      = data.map (fun e => (e.1, e.2.imgOk)) :=
  ⟨runBudget_resume det data b, runBudget_zero det data,
    fun j k => runBudget_objAt det data b j k, runBudget_shape det data b⟩

/-- Witness for C9: one readable image with one completed object, one
object refined within the budget, and one object cut off by the signal;
the saved store holds exactly the work completed before the signal, and
resuming reaches the uninterrupted result. -/
theorem C9_cancellation_persists_witness :
    (runBudget (fun _ _ => ["e"]) 1
        [("a", { imgOk := true,
                 objects := [{ eyes := some ["x"] }, { eyes := none }, { eyes := none }] })]).1
      = [("a", { imgOk := true,
                 objects := [{ eyes := some ["x"] }, { eyes := some ["e"] }, { eyes := none }] })] ∧
    runFullData (fun _ _ => ["e"])
        (runBudget (fun _ _ => ["e"]) 1
          [("a", { imgOk := true,
                   objects := [{ eyes := some ["x"] }, { eyes := none }, { eyes := none }] })]).1
      = runFullData (fun _ _ => ["e"])
          [("a", { imgOk := true,
                   objects := [{ eyes := some ["x"] }, { eyes := none }, { eyes := none }] })] :=
  ⟨rfl,
    (C9_cancellation_persists (fun _ _ => ["e"])
      [("a", { imgOk := true,
               objects := [{ eyes := some ["x"] }, { eyes := none }, { eyes := none }] })] 1).1⟩

end AnimalEyePipeline

namespace AnimalMeasurementTool

/-- The integer rounding used for the two-decimal distances agrees with
rounding the real square root: `roundNatSqrt n = round (sqrt n)`.  (The
floor of `sqrt n + 1/2` flips at `n = s² + s + 1`, the first integer
above `(s + 1/2)²`.) -/
theorem roundNatSqrt_eq_round_real_sqrt (n : ℕ) :
    (roundNatSqrt n : ℤ) = round (Real.sqrt n) := by
  have h1 : ((Nat.sqrt n : ℝ)) ^ 2 ≤ (n : ℝ) := by exact_mod_cast Nat.sqrt_le' n
  have h2 : (n : ℝ) < ((Nat.sqrt n : ℝ) + 1) ^ 2 := by exact_mod_cast Nat.lt_succ_sqrt' n
  have hge : (Nat.sqrt n : ℝ) ≤ Real.sqrt n :=
    (Real.le_sqrt (by positivity) (by positivity)).mpr h1
  have hlt : Real.sqrt n < (Nat.sqrt n : ℝ) + 1 :=
    (Real.sqrt_lt' (by positivity)).mpr h2
  rw [round_eq]
  by_cases hc : Nat.sqrt n * Nat.sqrt n + Nat.sqrt n + 1 ≤ n
  · have hval : roundNatSqrt n = Nat.sqrt n + 1 := by simp [roundNatSqrt, hc]
    have hcr : (Nat.sqrt n * Nat.sqrt n + Nat.sqrt n + 1 : ℝ) ≤ (n : ℝ) := by
      exact_mod_cast hc
    have hlow : (Nat.sqrt n : ℝ) + 1 / 2 < Real.sqrt n := by
      apply (Real.lt_sqrt (by positivity)).mpr
      nlinarith
    have hfloor : ⌊Real.sqrt n + 1 / 2⌋ = (Nat.sqrt n : ℤ) + 1 := by
      rw [Int.floor_eq_iff]
      constructor
      · push_cast
        linarith
      · push_cast
        linarith
    rw [hval, hfloor]
    push_cast
    ring
  · have hval : roundNatSqrt n = Nat.sqrt n := by simp [roundNatSqrt, hc]
    have hcr : (n : ℝ) ≤ (Nat.sqrt n * Nat.sqrt n + Nat.sqrt n : ℝ) := by
      exact_mod_cast Nat.lt_succ_iff.mp (Nat.lt_of_not_le hc)
    have hup : Real.sqrt n < (Nat.sqrt n : ℝ) + 1 / 2 := by
      apply (Real.sqrt_lt' (by positivity)).mpr
      nlinarith
    have hfloor : ⌊Real.sqrt n + 1 / 2⌋ = (Nat.sqrt n : ℤ) := by
      rw [Int.floor_eq_iff]
      constructor
      · push_cast
        linarith
      · push_cast
        linarith
    rw [hval, hfloor]

/-- The stored two-decimal distance is exactly the rounded value of
`100 · √(squared distance)`, divided by 100 — the exact-arithmetic
reading of `round(math.sqrt(dx² + dy²), 2)`. -/
theorem roundDist2_eq_round_sqrt (p q : Pt) :
    roundDist2 p q = ((round ((100 : ℝ) * Real.sqrt (distSq p q)) : ℤ) : ℚ) / 100 := by
  have hm : (100 : ℝ) * Real.sqrt (distSq p q) =
      Real.sqrt ((10000 * distSq p q : ℕ) : ℝ) := by
    have hc : ((10000 * distSq p q : ℕ) : ℝ) = (100 : ℝ) ^ 2 * (distSq p q : ℝ) := by
      push_cast
      ring
    rw [hc, Real.sqrt_mul (by positivity), Real.sqrt_sq (by norm_num)]
  rw [roundDist2, hm, ← roundNatSqrt_eq_round_real_sqrt]
  norm_num

end AnimalMeasurementTool

end SamEyes
